import Mathlib

/-!
# Verification of the heygpt conversation/session engine

A shallow embedding of the core of `heygpt` (files `src/main.rs`, `src/model.rs`):
the conversation state (`retract`), the streaming reducer (`do_stream_request`),
the batch decoder (`do_non_stream_request`), the interactive-loop error rollback
(`run_interactive`), and the serialized shape of the outgoing request (`Request`
with its serde attributes).

Rust `String`s are embedded as `List Char` (named `Str` below), so that string
operations (`push_str`, `starts_with`, `trim_start`, `is_empty`) become ordinary
list operations. Rust's `str::trim_start` trims Unicode whitespace; here it is
embedded with `Char.isWhitespace` (space, tab, CR, LF), which agrees with Rust on
all ASCII text — every property below only exercises ASCII content.
-/

set_option autoImplicit false

namespace HeyGpt

/-- Rust `String`, embedded as its sequence of characters. -/
abbrev Str := List Char

/-- `model.rs`: `struct Message { role: String, content: String }`. -/
structure Message where
  role : Str
  content : Str
  deriving Repr, DecidableEq

/-- `model.rs`: `struct DeltaMessage { role: Option<String>, content: Option<String> }`. -/
structure DeltaMessage where
  role : Option Str
  content : Option Str
  deriving Repr, DecidableEq

/-- `model.rs`: `struct ResponseDeltaChoice { delta, index, finish_reason }`. -/
structure ResponseDeltaChoice where
  delta : DeltaMessage
  index : Nat
  finish_reason : Option Str
  deriving Repr, DecidableEq

/-- `model.rs`: `struct ResponseStreamMessage { id, object, created, model, choices }`. -/
structure ResponseStreamMessage where
  id : Str
  object : Str
  created : Nat
  model : Str
  choices : List ResponseDeltaChoice
  deriving Repr, DecidableEq

/-- `model.rs`: `struct ResponseChoice { message, index, finish_reason }`. -/
structure ResponseChoice where
  message : Message
  index : Nat
  finish_reason : Option Str
  deriving Repr, DecidableEq

/-- `model.rs`: `struct ResponseUsage`. Token counts (`isize` in Rust). -/
structure ResponseUsage where
  completion_tokens : Int
  prompt_tokens : Int
  total_tokens : Int
  deriving Repr, DecidableEq

/-- `model.rs`: `struct ResponseMessage { choices, created, id, model, object, usage }`. -/
structure ResponseMessage where
  choices : List ResponseChoice
  created : Nat
  id : Str
  model : Str
  object : Str
  usage : ResponseUsage
  deriving Repr, DecidableEq

/-- `model.rs`: `struct ApiError { message, type, param, code }`.
`param` and `code` are arbitrary JSON values that the core never inspects;
they are embedded as an opaque presence marker (`Option Unit`). -/
structure ApiError where
  message : Str
  type : Str
  param : Option Unit
  code : Option Unit
  deriving Repr, DecidableEq

/-- `model.rs`: `struct WrappedApiError { error: ApiError }`. -/
structure WrappedApiError where
  error : ApiError
  deriving Repr, DecidableEq

/-- `model.rs`: `struct Request { model, messages, stream, temperature, top_p }`.
The sampling parameters are `Option<f64>`; the core never computes with them,
it only stores and serializes them. -/
structure Request where
  model : Str
  messages : List Message
  stream : Bool
  temperature : Option Float
  top_p : Option Float

/-! ## String primitives used by the core -/

/-- Rust `content.starts_with('\n')`. -/
def startsWithNewline : Str → Bool
  | [] => false
  | c :: _ => c = '\n'

/-- Rust `str::trim_start`: drop every leading whitespace character. -/
def trim_start (s : Str) : Str := s.dropWhile Char.isWhitespace

/-! ## Conversation state: `retract` (main.rs 430-444)

```rust
fn retract(&mut self) -> Result<()> {
    let mut count = 0usize;
    for message in self.messages.iter().rev() {
        count += 1;
        if message.role == "user" { break; }
    }
    if count == 0 {
        bail!("No message to retract");
    } else {
        self.messages.truncate(self.messages.len() - count);
        Ok(())
    }
}
```
-/

/-- The loop of `retract`, run on the already-reversed message list: count
one per message, stopping after the first message whose role is `"user"`. -/
def retractCount : List Message → Nat
  | [] => 0
  | m :: rest => if m.role = "user".data then 1 else 1 + retractCount rest

/-- `Session::retract`, as a function from the message list to either the error
message of the `bail!` or the truncated list. -/
def retract (messages : List Message) : Except Str (List Message) :=
  let count := retractCount messages.reverse
  if count = 0 then
    .error "No message to retract".data
  else
    .ok (messages.take (messages.length - count))

/-! ## Streaming reducer: `do_stream_request` (main.rs 325-373)

One SSE event as the reducer sees it: the stream-opened notification, a message
whose `data` is the literal `"[DONE]"`, a message whose `data` decoded as a
`ResponseStreamMessage`, a message whose `data` failed to decode
(`serde_json::from_str` returns `Err`, propagated by `?`), or a transport-level
error from the event source. -/
inductive StreamItem where
  | opened : StreamItem
  | done : StreamItem
  | msg : ResponseStreamMessage → StreamItem
  | badMsg : StreamItem
  | err : StreamItem
  deriving Repr, DecidableEq

/-- The failure outcomes the request functions can return (`Err(...)` values):
a transport error, a JSON decode error, or the remote API's error envelope
(`anyhow!("{}: {}", r.error.type, r.error.message)`). -/
inductive ReqError where
  | transport : ReqError
  | decode : ReqError
  | remoteApi : Str → Str → ReqError
  deriving Repr, DecidableEq

/-- The body of the `if let Some(role)` / `if let Some(content)` block of
`do_stream_request` (main.rs 344-359): fold one delta into the accumulator.

```rust
if let Some(role) = delta.role {
    full_message.role.push_str(&role);
}
if let Some(mut content) = delta.content {
    if content.starts_with('\n') && full_message.content.is_empty() {
        content = content.trim_start().to_owned();
    }
    full_message.content.push_str(&content);
}
```
-/
def applyDelta (full : Message) (delta : DeltaMessage) : Message :=
  let full :=
    match delta.role with
    | some role => { full with role := full.role ++ role }
    | none => full
  match delta.content with
  | none => full
  | some content =>
    let content :=
      if startsWithNewline content && full.content.isEmpty then trim_start content
      else content
    { full with content := full.content ++ content }

/-- The event loop of `do_stream_request`, with the accumulator
`full_message` made explicit. The outer `Option` models abortion by panic:
`message.choices.into_iter().next().unwrap()` panics when `choices` is empty,
which is `none` here; every non-panicking outcome is `some`. Reaching the end
of the list without `[DONE]` is the `while let` loop seeing `None` and falling
through to `Ok(full_message)`. -/
def streamLoop (full_message : Message) :
    List StreamItem → Option (Except ReqError Message)
  | [] => some (.ok full_message)
  | .opened :: rest => streamLoop full_message rest
  | .done :: _ => some (.ok full_message)
  | .msg m :: rest =>
    match m.choices with
    | [] => none
    | c :: _ => streamLoop (applyDelta full_message c.delta) rest
  | .badMsg :: _ => some (.error .decode)
  | .err :: _ => some (.error .transport)

/-- `Session::do_stream_request`: start from `Message::default()`
(empty role, empty content) and run the event loop. -/
def do_stream_request (events : List StreamItem) : Option (Except ReqError Message) :=
  streamLoop ⟨[], []⟩ events

/-! ## Batch decoder: `do_non_stream_request` (main.rs 375-402)

The HTTP response is embedded abstractly: its status code, and the outcome of
decoding its body against each of the two expected shapes (`WrappedApiError`
when the status check fails, `ResponseMessage` otherwise). `req.send().await?`
may itself fail, embedded as the argument being `none`. -/
structure HttpResponse where
  status : Nat
  bodyAsError : Option WrappedApiError
  bodyAsMessage : Option ResponseMessage
  deriving Repr, DecidableEq

/-- `Session::do_non_stream_request`.

```rust
let response = req.send().await?;
if response.status() != StatusCode::OK {
    let r: WrappedApiError = response.json().await?;
    return Err(anyhow!("{}: {}", r.error.r#type, r.error.message));
}
let response: ResponseMessage = response.json().await?;
let mut message = response.choices[0].message.clone();
if message.content.starts_with('\n') {
    message.content = message.content.trim_start().to_owned();
}
Ok(message)
```

`StatusCode::OK` is exactly 200. `response.choices[0]` panics when `choices`
is empty (outer `none`). -/
def do_non_stream_request (response : Option HttpResponse) :
    Option (Except ReqError Message) :=
  match response with
  | none => some (.error .transport)
  | some r =>
    if r.status ≠ 200 then
      match r.bodyAsError with
      | none => some (.error .decode)
      | some w => some (.error (.remoteApi w.error.type w.error.message))
    else
      match r.bodyAsMessage with
      | none => some (.error .decode)
      | some rm =>
        match rm.choices with
        | [] => none
        | c :: _ =>
          let message := c.message
          let message :=
            if startsWithNewline message.content then
              { message with content := trim_start message.content }
            else message
          some (.ok message)

/-! ## Interactive loop body: `run_interactive` (main.rs 221-241)

```rust
self.messages.push(Message { role: "user".to_string(), content: prompt });
match self.complete_and_print().await {
    Ok(response) => self.messages.push(response),
    Err(err) => {
        let last_msg = self.messages.pop(); // remove the last message
        ...
    }
}
```

`complete_and_print` builds the request from a clone of the history and
dispatches on `options.stream` to `do_stream_request` or
`do_non_stream_request`; neither touches `self.messages`. The network's
behavior is passed in as the stream events and the HTTP response (only the
one selected by the flag is consulted). -/
def complete_and_print (stream : Bool) (events : List StreamItem)
    (response : Option HttpResponse) : Option (Except ReqError Message) :=
  if stream then do_stream_request events else do_non_stream_request response

/-- One iteration of the `run_interactive` loop after a prompt was read:
append the user turn, dispatch, then commit the assistant turn on success or
pop the user turn on failure. `none` propagates a panic. -/
def run_interactive_turn (stream : Bool) (messages : List Message) (prompt : Str)
    (events : List StreamItem) (response : Option HttpResponse) :
    Option (List Message) :=
  let messages := messages ++ [⟨"user".data, prompt⟩]
  match complete_and_print stream events response with
  | none => none
  | some (.ok m) => some (messages ++ [m])
  | some (.error _) => some messages.dropLast

/-! ## Request serialization (model.rs 15-26)

```rust
#[derive(Debug, Deserialize, Serialize)]
pub struct Request {
    pub model: String,
    pub messages: Vec<Message>,
    pub stream: bool,
    #[serde(skip_serializing_if = "Option::is_none")]
    pub temperature: Option<f64>,
    #[serde(skip_serializing_if = "Option::is_none")]
    pub top_p: Option<f64>,
}
```

Serde's derived `Serialize` writes a JSON object with one field per struct
field in declaration order, skipping a field exactly when its
`skip_serializing_if` predicate holds — for `Option::is_none`, when the value
is `None`. An `Option` field without that attribute would serialize `None` as
`null`; the embedding keeps `null` as a constructor so the distinction is
expressible. -/
inductive Json where
  | str : Str → Json
  | num : Float → Json
  | bool : Bool → Json
  | null : Json
  | arr : List Json → Json
  | obj : List (String × Json) → Json

/-- Serde serialization of `Message`: both fields, in order. -/
def serializeMessage (m : Message) : Json :=
  .obj [("role", .str m.role), ("content", .str m.content)]

/-- Serde serialization of `Request` as its list of JSON object fields:
fields in declaration order, with `temperature` and `top_p` contributing no
field at all when `None` (their `skip_serializing_if = "Option::is_none"`). -/
def serializeRequest (r : Request) : List (String × Json) :=
  [("model", .str r.model),
   ("messages", .arr (r.messages.map serializeMessage)),
   ("stream", .bool r.stream)]
  ++ (match r.temperature with
      | none => []
      | some t => [("temperature", .num t)])
  ++ (match r.top_p with
      | none => []
      | some p => [("top_p", .num p)])

/-! ## Specification-side definitions

These follow the spec's words rather than the source; they exist to be
compared with the embedded code above. -/

/-- The spec's normalization rule for the claims under test: "a single leading
newline is stripped" — remove exactly one `'\n'` from the front when present,
and nothing else. -/
def specStripOneLeadingNewline : Str → Str
  | '\n' :: rest => rest
  | s => s

/-- Content normalization as the batch decoder actually performs it: all
leading whitespace is removed when (and only when) the content begins with a
newline. -/
def normalizeContent (s : Str) : Str :=
  if startsWithNewline s then trim_start s else s

/-- An event the streaming reducer consumes without terminating and without
panicking: the open notification, or a decoded message with a nonempty
`choices` list. -/
def benign : StreamItem → Bool
  | .opened => true
  | .msg m => !m.choices.isEmpty
  | _ => false

/-- The per-event state update of the streaming loop, as a fold step:
a decoded message folds its first choice's delta into the accumulator,
every other event leaves it unchanged. -/
def stepMsg (full : Message) : StreamItem → Message
  | .msg m =>
    match m.choices with
    | [] => full
    | c :: _ => applyDelta full c.delta
  | _ => full

/-- The content fragments an event sequence contributes, in arrival order:
`delta.content` of the first choice of each decoded message that has one. -/
def contentsOf : List StreamItem → List Str
  | [] => []
  | .msg m :: rest =>
    (match m.choices with
     | c :: _ =>
       match c.delta.content with
       | some s => s :: contentsOf rest
       | none => contentsOf rest
     | [] => contentsOf rest)
  | _ :: rest => contentsOf rest

/-- The role fragments an event sequence contributes, in arrival order. -/
def rolesOf : List StreamItem → List Str
  | [] => []
  | .msg m :: rest =>
    (match m.choices with
     | c :: _ =>
       match c.delta.role with
       | some s => s :: rolesOf rest
       | none => rolesOf rest
     | [] => rolesOf rest)
  | _ :: rest => rolesOf rest

/-- The content-only part of `applyDelta`: append one fragment to the
accumulated content, trimming all its leading whitespace when it begins with
a newline while the accumulator is still empty. -/
def appendContent (acc f : Str) : Str :=
  acc ++ (if startsWithNewline f && acc.isEmpty then trim_start f else f)

/-- Closed-form description of the accumulated content (the amended C1):
while nothing has accumulated yet, each fragment beginning with a newline
loses all its leading whitespace; the first fragment to contribute a
character is followed by the remaining fragments concatenated verbatim. -/
def normContents : List Str → Str
  | [] => []
  | f :: rest =>
    let f' := if startsWithNewline f then trim_start f else f
    if f'.isEmpty then normContents rest
    else f' ++ rest.flatten

/-- Decidable equality for `Except`, so closed evaluations can be settled by
`decide`. -/
instance instDecEqExcept {ε α : Type} [DecidableEq ε] [DecidableEq α] :
    DecidableEq (Except ε α)
  | .error e, .error f =>
    if h : e = f then .isTrue (by rw [h])
    else .isFalse (fun hc => h (Except.error.inj hc))
  | .error _, .ok _ => .isFalse (fun hc => Except.noConfusion hc)
  | .ok _, .error _ => .isFalse (fun hc => Except.noConfusion hc)
  | .ok a, .ok b =>
    if h : a = b then .isTrue (by rw [h])
    else .isFalse (fun hc => h (Except.ok.inj hc))

/-! ## Helper lemmas about the streaming reducer -/

/-- Content projection of one delta application: the content either stays
unchanged (no `delta.content`) or grows by `appendContent`. -/
theorem applyDelta_content (full : Message) (d : DeltaMessage) :
    (applyDelta full d).content =
      match d.content with
      | none => full.content
      | some c => appendContent full.content c := by
  cases hr : d.role <;> cases hc : d.content <;>
    simp [applyDelta, hr, hc, appendContent]

/-- Role projection of one delta application: the role either stays unchanged
(no `delta.role`) or grows by concatenation. -/
theorem applyDelta_role (full : Message) (d : DeltaMessage) :
    (applyDelta full d).role =
      match d.role with
      | none => full.role
      | some r => full.role ++ r := by
  cases hr : d.role <;> cases hc : d.content <;>
    simp [applyDelta, hr, hc]

/-- On a sequence of benign events the loop never terminates early, never
fails and never panics: reaching the end of the list returns the fold of all
deltas. -/
theorem streamLoop_benign (evs : List StreamItem) (acc : Message)
    (h : ∀ e ∈ evs, benign e = true) :
    streamLoop acc evs = some (.ok (evs.foldl stepMsg acc)) := by
  induction evs generalizing acc with
  | nil => rfl
  | cons e rest ih =>
    have he := h e (List.mem_cons_self ..)
    have hr : ∀ x ∈ rest, benign x = true := fun x hx => h x (List.mem_cons_of_mem _ hx)
    cases e with
    | opened => simpa [streamLoop, stepMsg] using ih acc hr
    | msg m =>
      cases hc : m.choices with
      | nil => simp [benign, hc] at he
      | cons c cs =>
        simp only [streamLoop, hc, List.foldl_cons, stepMsg]
        exact ih _ hr
    | done => simp [benign] at he
    | badMsg => simp [benign] at he
    | err => simp [benign] at he

/-- A benign sequence terminated by `[DONE]` also returns the fold of all
deltas. -/
theorem streamLoop_benign_done (evs : List StreamItem) (acc : Message)
    (h : ∀ e ∈ evs, benign e = true) :
    streamLoop acc (evs ++ [.done]) = some (.ok (evs.foldl stepMsg acc)) := by
  induction evs generalizing acc with
  | nil => rfl
  | cons e rest ih =>
    have he := h e (List.mem_cons_self ..)
    have hr : ∀ x ∈ rest, benign x = true := fun x hx => h x (List.mem_cons_of_mem _ hx)
    cases e with
    | opened => simpa [streamLoop, stepMsg] using ih acc hr
    | msg m =>
      cases hc : m.choices with
      | nil => simp [benign, hc] at he
      | cons c cs =>
        simp only [List.cons_append, streamLoop, hc, List.foldl_cons, stepMsg]
        exact ih _ hr
    | done => simp [benign] at he
    | badMsg => simp [benign] at he
    | err => simp [benign] at he

/-- The accumulated content depends only on the sequence of content
fragments: the fold over events projects to a fold of `appendContent` over
`contentsOf`. -/
theorem foldl_stepMsg_content (evs : List StreamItem) (acc : Message) :
    (evs.foldl stepMsg acc).content = (contentsOf evs).foldl appendContent acc.content := by
  induction evs generalizing acc with
  | nil => rfl
  | cons e rest ih =>
    cases e with
    | opened => simpa [stepMsg, contentsOf] using ih acc
    | done => simpa [stepMsg, contentsOf] using ih acc
    | badMsg => simpa [stepMsg, contentsOf] using ih acc
    | err => simpa [stepMsg, contentsOf] using ih acc
    | msg m =>
      cases hc : m.choices with
      | nil => simpa [stepMsg, contentsOf, hc] using ih acc
      | cons c cs =>
        cases hct : c.delta.content with
        | none =>
          have hpt : (applyDelta acc c.delta).content = acc.content := by
            rw [applyDelta_content]; simp [hct]
          simp only [List.foldl_cons, stepMsg, hc, contentsOf, hct]
          rw [ih, hpt]
        | some s =>
          have hpt : (applyDelta acc c.delta).content = appendContent acc.content s := by
            rw [applyDelta_content]; simp [hct]
          simp only [List.foldl_cons, stepMsg, hc, contentsOf, hct]
          rw [ih, hpt]

/-- The accumulated role is the concatenation of all role fragments, in
arrival order, appended to the initial role. -/
theorem foldl_stepMsg_role (evs : List StreamItem) (acc : Message) :
    (evs.foldl stepMsg acc).role = acc.role ++ (rolesOf evs).flatten := by
  induction evs generalizing acc with
  | nil => simp [rolesOf]
  | cons e rest ih =>
    cases e with
    | opened => simpa [stepMsg, rolesOf] using ih acc
    | done => simpa [stepMsg, rolesOf] using ih acc
    | badMsg => simpa [stepMsg, rolesOf] using ih acc
    | err => simpa [stepMsg, rolesOf] using ih acc
    | msg m =>
      cases hc : m.choices with
      | nil => simpa [stepMsg, rolesOf, hc] using ih acc
      | cons c cs =>
        cases hrr : c.delta.role with
        | none =>
          have hpt : (applyDelta acc c.delta).role = acc.role := by
            rw [applyDelta_role]; simp [hrr]
          simp only [List.foldl_cons, stepMsg, hc, rolesOf, hrr]
          rw [ih, hpt]
        | some s =>
          have hpt : (applyDelta acc c.delta).role = acc.role ++ s := by
            rw [applyDelta_role]; simp [hrr]
          simp only [List.foldl_cons, stepMsg, hc, rolesOf, hrr]
          rw [ih, hpt]
          simp [List.append_assoc]

/-- Once the accumulator is nonempty, every later fragment is appended
verbatim — this is why nothing after the first contributed character is ever
trimmed. -/
theorem foldl_appendContent_of_ne_nil (fs : List Str) (acc : Str) (h : acc ≠ []) :
    fs.foldl appendContent acc = acc ++ fs.flatten := by
  induction fs generalizing acc with
  | nil => simp
  | cons f rest ih =>
    have hne : acc.isEmpty = false := by
      cases acc with
      | nil => exact absurd rfl h
      | cons a as => rfl
    have hstep : appendContent acc f = acc ++ f := by
      simp [appendContent, hne]
    rw [List.foldl_cons, hstep, ih _ (by simp [h]), List.flatten_cons, List.append_assoc]

/-- The content fold from the empty accumulator computes `normContents`. -/
theorem foldl_appendContent_nil (fs : List Str) :
    fs.foldl appendContent [] = normContents fs := by
  induction fs with
  | nil => rfl
  | cons f rest ih =>
    have hstep : appendContent [] f =
        (if startsWithNewline f then trim_start f else f) := by
      simp [appendContent]
    rw [List.foldl_cons, hstep]
    by_cases h : (if startsWithNewline f then trim_start f else f) = []
    · rw [h, ih]
      simp [normContents, h]
    · rw [foldl_appendContent_of_ne_nil _ _ h]
      simp [normContents, h]

/-! ## C1 — streaming content accumulation -/

/-- Claim C1 (counterexample): the claim predicts that only a single leading
newline is stripped. On the one-fragment stream `["\n\nHi"]` the reducer
returns content `"Hi"` — `trim_start` removed both newlines — while the
claim's normalization of the concatenated fragments yields `"\nHi"`. The
second newline was not at position 0 of the message the claim predicts, yet
it was stripped. -/
theorem c1_counterexample :
    do_stream_request
        [.msg ⟨[], [], 0, [], [⟨⟨none, some "\n\nHi".data⟩, 0, none⟩]⟩, .done]
      = some (.ok ⟨[], "Hi".data⟩)
    ∧ specStripOneLeadingNewline (List.flatten ["\n\nHi".data]) ≠ "Hi".data := by
  decide

/-- Claim C1 (amended): for every benign event sequence ending in `[DONE]`,
the reducer's accumulated content is the concatenation of all `delta.content`
fragments in arrival order, except that while the accumulator is still empty
each fragment beginning with a newline has ALL of its leading whitespace
stripped (not just one newline, and possibly across several fragments); once
a character has been contributed, every later fragment is appended
verbatim. -/
theorem stream_content_accumulation (evs : List StreamItem)
    (h : ∀ e ∈ evs, benign e = true) :
    (do_stream_request (evs ++ [.done])).map (Except.map Message.content)
      = some (.ok (normContents (contentsOf evs))) := by
  rw [do_stream_request, streamLoop_benign_done evs _ h]
  simp only [Option.map_some', Except.map]
  rw [foldl_stepMsg_content]
  exact congrArg (fun s => some (Except.ok s)) (foldl_appendContent_nil _)

/-- Claim C1 (witness): a concrete run — fragments `"\n"` then `" Hi"` give
content `" Hi"`: the all-newline first fragment is trimmed away, the interior
leading space of the second fragment is preserved. -/
theorem stream_content_accumulation_witness :
    (do_stream_request
        ([.opened,
          .msg ⟨[], [], 0, [], [⟨⟨some "assistant".data, some "\n".data⟩, 0, none⟩]⟩,
          .msg ⟨[], [], 0, [], [⟨⟨none, some " Hi".data⟩, 0, none⟩]⟩] ++ [.done])).map
        (Except.map Message.content)
      = some (.ok " Hi".data) := by
  rw [stream_content_accumulation _ (by decide)]
  decide

/-! ## C2 — retract on an empty or system-only conversation -/

/-- Claim C2 (code bug): `retract` on a system-only conversation does NOT
fail with `NoMessageToRetract` — the counting loop exits with `count = 1`
after scanning the system turn without finding a user turn, so the `count ==
0` guard (which is only reachable on an empty list) is passed and the system
turn itself is truncated away. Only the empty conversation behaves as the
claim states. -/
theorem retract_system_only_clears :
    retract [⟨"system".data, "Be terse".data⟩] = .ok []
    ∧ retract ([] : List Message) = .error "No message to retract".data := by
  decide

/-! ## C3 — interactive-mode rollback on per-turn failure -/

/-- Claim C3: in interactive mode, whenever the dispatched request
(streaming or batch) returns an error — transport failure, decode failure or
remote API error, at any point — the loop body pops the just-appended user
turn and commits no assistant turn, so the conversation is exactly what it
was before the turn began. -/
theorem interactive_turn_error_restores_conversation (stream : Bool)
    (messages : List Message) (prompt : Str) (events : List StreamItem)
    (response : Option HttpResponse) (e : ReqError)
    (h : complete_and_print stream events response = some (.error e)) :
    run_interactive_turn stream messages prompt events response = some messages := by
  simp only [run_interactive_turn, h, List.dropLast_concat]

/-- Claim C3 (witness): a transport error on the very first stream event of
an empty conversation leaves the conversation empty. -/
theorem interactive_turn_error_restores_conversation_witness :
    run_interactive_turn true [] "hi".data [.err] none = some [] :=
  interactive_turn_error_restores_conversation true [] "hi".data [.err] none
    .transport (by decide)

/-! ## C4 — retract inverts a (user, assistant) append -/

/-- Claim C4: for every conversation, appending a user turn followed by an
assistant turn and then calling `retract` returns exactly the original
conversation: the scan counts the assistant turn and the user turn (2), and
truncation removes precisely that suffix. -/
theorem retract_inverts_user_assistant_append (messages : List Message) (uc ac : Str) :
    retract (messages ++ [⟨"user".data, uc⟩, ⟨"assistant".data, ac⟩]) = .ok messages := by
  have hrev : (messages ++ [(⟨"user".data, uc⟩ : Message), ⟨"assistant".data, ac⟩]).reverse
      = (⟨"assistant".data, ac⟩ : Message) :: ⟨"user".data, uc⟩ :: messages.reverse := by
    simp
  have hcount :
      retractCount (messages ++ [(⟨"user".data, uc⟩ : Message), ⟨"assistant".data, ac⟩]).reverse
        = 2 := by
    rw [hrev]
    show (if ("assistant".data : Str) = "user".data then 1
          else 1 + retractCount ((⟨"user".data, uc⟩ : Message) :: messages.reverse)) = 2
    rw [if_neg (by decide)]
    show 1 + (if ("user".data : Str) = "user".data then 1
          else 1 + retractCount messages.reverse) = 2
    rw [if_pos rfl]
  simp only [retract, hcount]
  rw [if_neg (by decide : ¬ (2 = 0))]
  have hlen : (messages ++ [(⟨"user".data, uc⟩ : Message), ⟨"assistant".data, ac⟩]).length - 2
      = messages.length := by
    simp
  rw [hlen]
  rw [List.take_left' rfl]

/-! ## C5 — role of a stream that never supplies one -/

/-- Claim C5 (counterexample): a stream whose deltas never carry a role
yields a turn whose role is the EMPTY string, not `"assistant"` — no
defaulting exists anywhere in `do_stream_request`; the accumulator starts
from `Message::default()` and is returned as is. -/
theorem c5_counterexample :
    do_stream_request [.msg ⟨[], [], 0, [], [⟨⟨none, some "Hi".data⟩, 0, none⟩]⟩, .done]
      = some (.ok ⟨[], "Hi".data⟩)
    ∧ ([] : Str) ≠ "assistant".data := by
  decide

/-- Claim C5 (amended): for every benign stream ending in `[DONE]` in which
no event carries a `delta.role`, the reducer returns a turn whose role is the
empty string. -/
theorem stream_role_empty_without_role_delta (evs : List StreamItem)
    (h : ∀ e ∈ evs, benign e = true) (hr : rolesOf evs = []) :
    (do_stream_request (evs ++ [.done])).map (Except.map Message.role)
      = some (.ok ([] : Str)) := by
  rw [do_stream_request, streamLoop_benign_done evs _ h]
  simp [Except.map, foldl_stepMsg_role, hr]

/-- Claim C5 (witness): a concrete content-only stream produces the empty
role. -/
theorem stream_role_empty_without_role_delta_witness :
    (do_stream_request
        ([.msg ⟨[], [], 0, [], [⟨⟨none, some "Hi".data⟩, 0, none⟩]⟩] ++ [.done])).map
        (Except.map Message.role)
      = some (.ok ([] : Str)) :=
  stream_role_empty_without_role_delta _ (by decide) (by decide)

/-! ## C6 — batch-path content normalization -/

/-- Claim C6 (counterexample): the claim predicts that exactly one leading
newline is stripped. On a 200 response whose message content is `"\n\nHi"`
the decoder returns `"Hi"` — `trim_start` removed both newlines — while
stripping a single leading newline would give `"\nHi"`. -/
theorem c6_counterexample :
    do_non_stream_request
        (some ⟨200, none,
          some ⟨[⟨⟨"assistant".data, "\n\nHi".data⟩, 0, none⟩], 0, [], [], [], ⟨0, 0, 0⟩⟩⟩)
      = some (.ok ⟨"assistant".data, "Hi".data⟩)
    ∧ specStripOneLeadingNewline "\n\nHi".data ≠ "Hi".data := by
  decide

/-- Claim C6 (amended): on HTTP 200 with a decodable body and a nonempty
`choices`, the decoder returns `choices[0].message` with ALL leading
whitespace stripped from its content if and only if the content begins with
a newline, and the content unmodified otherwise — the same `trim_start`
normalization the streaming path applies. -/
theorem batch_normalizes_with_trim (r : HttpResponse) (rm : ResponseMessage)
    (c : ResponseChoice) (rest : List ResponseChoice)
    (h1 : r.status = 200) (h2 : r.bodyAsMessage = some rm) (h3 : rm.choices = c :: rest) :
    do_non_stream_request (some r)
      = some (.ok { c.message with content := normalizeContent c.message.content }) := by
  simp only [do_non_stream_request, h1, h2, h3]
  rw [if_neg (by simp)]
  by_cases hn : startsWithNewline c.message.content <;>
    simp [normalizeContent, hn]

/-- Claim C6 (witness): content `"\n ok"` comes back as `"ok"` — the newline
and the following space are both stripped. -/
theorem batch_normalizes_with_trim_witness :
    do_non_stream_request
        (some ⟨200, none,
          some ⟨[⟨⟨"assistant".data, "\n ok".data⟩, 0, none⟩], 0, [], [], [], ⟨0, 0, 0⟩⟩⟩)
      = some (.ok ⟨"assistant".data, "ok".data⟩) := by
  rw [batch_normalizes_with_trim
    ⟨200, none, some ⟨[⟨⟨"assistant".data, "\n ok".data⟩, 0, none⟩], 0, [], [], [], ⟨0, 0, 0⟩⟩⟩
    ⟨[⟨⟨"assistant".data, "\n ok".data⟩, 0, none⟩], 0, [], [], [], ⟨0, 0, 0⟩⟩
    ⟨⟨"assistant".data, "\n ok".data⟩, 0, none⟩ [] rfl rfl rfl]
  decide

/-! ## C7 — end of stream without [DONE] -/

/-- Claim C7: a benign event sequence that simply ends — transport closes
without ever yielding `[DONE]` and without an error — returns the message
accumulated so far as a success, and the result is literally equal to what
the same sequence terminated by `[DONE]` would return: the two are
indistinguishable. -/
theorem stream_eos_without_done_is_success (evs : List StreamItem)
    (h : ∀ e ∈ evs, benign e = true) :
    do_stream_request evs = some (.ok (evs.foldl stepMsg ⟨[], []⟩))
    ∧ do_stream_request evs = do_stream_request (evs ++ [.done]) := by
  refine ⟨streamLoop_benign evs _ h, ?_⟩
  rw [do_stream_request, do_stream_request, streamLoop_benign evs _ h,
    streamLoop_benign_done evs _ h]

/-- Claim C7 (witness): a one-fragment stream cut off before `[DONE]` equals
the properly terminated run. -/
theorem stream_eos_without_done_is_success_witness :
    do_stream_request [.msg ⟨[], [], 0, [], [⟨⟨none, some "Hi".data⟩, 0, none⟩]⟩]
      = do_stream_request
          ([.msg ⟨[], [], 0, [], [⟨⟨none, some "Hi".data⟩, 0, none⟩]⟩] ++ [.done]) :=
  (stream_eos_without_done_is_success _ (by decide)).2

/-! ## C8 — non-streaming error branch condition -/

/-- Claim C8 (counterexample): the code compares the status against
`StatusCode::OK` — exactly 200 — not against the 2xx success class. Status
201 is a success (2xx) status, yet the decoder takes the error branch and
fails with the error envelope even though a decodable `BatchResponse` body is
present. -/
theorem c8_counterexample :
    (200 ≤ 201 ∧ 201 < 300)
    ∧ do_non_stream_request
        (some ⟨201,
          some ⟨⟨"invalid key".data, "invalid_request_error".data, none, none⟩⟩,
          some ⟨[⟨⟨"assistant".data, "ok".data⟩, 0, none⟩], 0, [], [], [], ⟨0, 0, 0⟩⟩⟩)
      = some (.error (.remoteApi "invalid_request_error".data "invalid key".data)) := by
  decide

/-- Claim C8 (amended): for every response whose body decodes as an
`ApiErrorEnvelope`, the operation fails with `RemoteApiError` carrying
`kind = error.type` and `message = error.message` (producing no turn) if and
only if the HTTP status differs from 200 — not from the whole 2xx class. -/
theorem non_stream_error_branch_iff_not_200 (r : HttpResponse) (w : WrappedApiError)
    (h : r.bodyAsError = some w) :
    (do_non_stream_request (some r)
        = some (.error (.remoteApi w.error.type w.error.message)))
      ↔ r.status ≠ 200 := by
  by_cases hs : r.status = 200
  · have hne : do_non_stream_request (some r)
        ≠ some (.error (.remoteApi w.error.type w.error.message)) := by
      simp only [do_non_stream_request, hs]
      rw [if_neg (by simp)]
      cases hm : r.bodyAsMessage with
      | none => simp
      | some rm =>
        cases hc : rm.choices with
        | nil => simp [hc]
        | cons c cs => simp [hc]
    simp [hs, hne]
  · have heq : do_non_stream_request (some r)
        = some (.error (.remoteApi w.error.type w.error.message)) := by
      simp only [do_non_stream_request]
      rw [if_pos hs, h]
    simp [hs, heq]

/-- Claim C8 (witness): the spec's own 401 scenario — the error envelope is
surfaced as `RemoteApiError{kind: "invalid_request_error", message: "invalid
key"}`. -/
theorem non_stream_error_branch_iff_not_200_witness :
    do_non_stream_request
        (some ⟨401, some ⟨⟨"invalid key".data, "invalid_request_error".data, none, none⟩⟩, none⟩)
      = some (.error (.remoteApi "invalid_request_error".data "invalid key".data)) :=
  (non_stream_error_branch_iff_not_200
    ⟨401, some ⟨⟨"invalid key".data, "invalid_request_error".data, none, none⟩⟩, none⟩
    ⟨⟨"invalid key".data, "invalid_request_error".data, none, none⟩⟩ rfl).mpr (by decide)

/-! ## C9 — serialized request omits absent sampling fields -/

/-- Claim C9: in the serialized JSON form of every `Request`, the key
`"temperature"` appears if and only if the field is present, and likewise
`"top_p"` — an absent field contributes no key at all (in particular no
`null`-valued key), per `skip_serializing_if = "Option::is_none"`. -/
theorem request_serialization_omits_absent_sampling (r : Request) :
    ((serializeRequest r).map Prod.fst).contains "temperature" = r.temperature.isSome
    ∧ ((serializeRequest r).map Prod.fst).contains "top_p" = r.top_p.isSome := by
  cases ht : r.temperature <;> cases hp : r.top_p <;>
    simp [serializeRequest, ht, hp, List.contains]

/-! ## C10 — unguarded choices[0] access -/

/-- Claim C10: both consumption paths index `choices[0]` without a guard.
A decoded stream event with an empty `choices` list makes the reducer panic
(`.unwrap()` on `None`), and a 200 batch response whose decoded body has an
empty `choices` list makes the decoder panic (out-of-bounds `[0]`): in both
cases the program aborts (`none`) instead of reporting a
`MalformedResponse`-style error. -/
theorem choices_empty_aborts :
    (∀ (m : ResponseStreamMessage) (rest : List StreamItem), m.choices = [] →
      do_stream_request (.msg m :: rest) = none)
    ∧ ∀ (r : HttpResponse) (rm : ResponseMessage), r.status = 200 →
        r.bodyAsMessage = some rm → rm.choices = [] →
        do_non_stream_request (some r) = none := by
  constructor
  · intro m rest hm
    simp [do_stream_request, streamLoop, hm]
  · intro r rm h1 h2 h3
    simp [do_non_stream_request, h1, h2, h3]

/-- Claim C10 (witness): concrete empty-`choices` inputs abort both paths. -/
theorem choices_empty_aborts_witness :
    do_stream_request [.msg ⟨[], [], 0, [], []⟩] = none
    ∧ do_non_stream_request (some ⟨200, none, some ⟨[], 0, [], [], [], ⟨0, 0, 0⟩⟩⟩) = none :=
  ⟨choices_empty_aborts.1 _ [] rfl, choices_empty_aborts.2 _ _ rfl rfl rfl⟩

end HeyGpt
